import Mathlib

/-
Verification of the Silicon Labs HAL sources (GPIO and I2C peripheral
accessors, secure-element manager utilities) against their natural-language
specification.

Machine integers are modelled as `Nat` with 32-bit behaviour made explicit
through masking; memory-mapped peripherals are modelled as explicit state
records, and each C function becomes a Lean function on those records.
Register-layout constants that live in device headers outside the sources
(field masks and shifts of the EXTIPSEL/EXTIPINSEL registers, the
`gpioModeDisabled` enumerator) are modelled from the specification text:
the external-interrupt port-select fields are 4 bits wide and the
pin-select fields hold a 2-bit value `pin % 4`, one field per interrupt
number, packed four bits apart.  The modelled silicon revision is the
series-2 layout, where EXTIPSELL/EXTIPSELH and EXTIPINSELL/EXTIPINSELH
all exist and the `H` registers use the `EXTIPSEL0`-style field layout.
-/

/-- All 32 bits set: the value of an all-ones 32-bit register mask. -/
def mask32 : Nat := 2 ^ 32 - 1

/-- `BUS_RegMaskedWrite` (em_bus.h, declared outside the sources).
Modelled from the spec: writes the masked bits of `val` into the register,
leaving bits outside `mask` unchanged:
`reg := (reg AND NOT mask) OR (val AND mask)` on 32-bit words. -/
def BUS_RegMaskedWrite (reg mask val : Nat) : Nat :=
  (reg &&& (mask32 ^^^ mask)) ||| (val &&& mask)

/-- `BUS_RegBitWrite` (em_bus.h, declared outside the sources).
Modelled from the spec: writes a single bit of a 32-bit register to the
given boolean value, leaving the other bits unchanged. -/
def BUS_RegBitWrite (reg : Nat) (bit : Nat) (val : Bool) : Nat :=
  if val then reg ||| (1 <<< bit) else reg &&& (mask32 ^^^ (1 <<< bit))

/-- Extract the `w`-bit field of a register `x` starting at bit `s`. -/
def getField (x s w : Nat) : Nat :=
  (x >>> s) &&& (2 ^ w - 1)

-- Bit-level facts about the register-write primitives.

theorem testBit_getField (x s w i : Nat) :
    (getField x s w).testBit i = (x.testBit (s + i) && decide (i < w)) := by
  simp [getField, Nat.testBit_and, Nat.testBit_shiftRight, Nat.testBit_two_pow_sub_one]
  rw [Bool.and_comm]

theorem testBit_mask32 (i : Nat) : mask32.testBit i = decide (i < 32) := by
  rw [mask32, Nat.testBit_two_pow_sub_one]

theorem testBit_maskedWrite (r m v i : Nat) (hi : i < 32) :
    (BUS_RegMaskedWrite r m v).testBit i
      = ((r.testBit i && !(m.testBit i)) || (v.testBit i && m.testBit i)) := by
  simp only [BUS_RegMaskedWrite, Nat.testBit_or, Nat.testBit_and, Nat.testBit_xor, mask32,
    Nat.testBit_two_pow_sub_one]
  simp [hi, Bool.xor_comm]

theorem and_two_pow_sub_one_of_lt (v w : Nat) (hv : v < 2 ^ w) : v &&& (2 ^ w - 1) = v := by
  apply Nat.eq_of_testBit_eq
  intro i
  rw [Nat.testBit_and, Nat.testBit_two_pow_sub_one]
  by_cases h : i < w
  · simp [h]
  · have : v < 2 ^ i := lt_of_lt_of_le hv (Nat.pow_le_pow_right (by norm_num) (le_of_not_lt h))
    simp [h, Nat.testBit_lt_two_pow this]

/-- Reading back the field just written by a masked register write. -/
theorem getField_maskedWrite_self (r v s w : Nat) (hv : v < 2 ^ w) (hsw : s + w ≤ 32) :
    getField (BUS_RegMaskedWrite r ((2 ^ w - 1) <<< s) (v <<< s)) s w = v := by
  apply Nat.eq_of_testBit_eq
  intro i
  rw [testBit_getField]
  by_cases h : i < w
  · rw [testBit_maskedWrite _ _ _ _ (by omega)]
    have hm : ((2 ^ w - 1) <<< s).testBit (s + i) = true := by
      rw [Nat.testBit_shiftLeft, Nat.add_sub_cancel_left]
      simp [Nat.testBit_two_pow_sub_one, h]
    have hvv : (v <<< s).testBit (s + i) = v.testBit i := by
      rw [Nat.testBit_shiftLeft, Nat.add_sub_cancel_left]
      simp
    simp [hm, hvv, h]
  · have : v < 2 ^ i := lt_of_lt_of_le hv (Nat.pow_le_pow_right (by norm_num) (le_of_not_lt h))
    simp [h, Nat.testBit_lt_two_pow this]

/-- A masked write to one field leaves a disjoint field unchanged. -/
theorem getField_maskedWrite_other (r v s s' w w' : Nat)
    (hd : s' + w' ≤ s ∨ s + w ≤ s') (h32 : s' + w' ≤ 32) :
    getField (BUS_RegMaskedWrite r ((2 ^ w - 1) <<< s) v) s' w' = getField r s' w' := by
  apply Nat.eq_of_testBit_eq
  intro i
  rw [testBit_getField, testBit_getField]
  by_cases h : i < w'
  · rw [testBit_maskedWrite _ _ _ _ (by omega)]
    have hm : ((2 ^ w - 1) <<< s).testBit (s' + i) = false := by
      rw [Nat.testBit_shiftLeft]
      rcases hd with hd | hd
      · simp [show ¬(s' + i ≥ s) by omega]
      · simp [Nat.testBit_two_pow_sub_one, show ¬(s' + i - s < w) by omega]
    simp [hm]
  · simp [h]

/-- Writing one register bit sets exactly that bit to the given value. -/
theorem testBit_bitWrite_self (r bit : Nat) (b : Bool) (h : bit < 32) :
    (BUS_RegBitWrite r bit b).testBit bit = b := by
  cases b with
  | false =>
    simp only [BUS_RegBitWrite]
    rw [if_neg Bool.false_ne_true, Nat.testBit_and, Nat.testBit_xor, testBit_mask32,
      Nat.one_shiftLeft, Nat.testBit_two_pow_self]
    simp [h]
  | true =>
    simp only [BUS_RegBitWrite]
    rw [if_pos trivial, Nat.testBit_or, Nat.one_shiftLeft, Nat.testBit_two_pow_self]
    simp

/-- Writing one register bit leaves every other bit of the low 32 unchanged. -/
theorem testBit_bitWrite_other (r bit : Nat) (b : Bool) (j : Nat) (hj : j ≠ bit) (h32 : j < 32) :
    (BUS_RegBitWrite r bit b).testBit j = r.testBit j := by
  cases b with
  | false =>
    simp only [BUS_RegBitWrite]
    rw [if_neg Bool.false_ne_true, Nat.testBit_and, Nat.testBit_xor, testBit_mask32,
      Nat.one_shiftLeft, Nat.testBit_two_pow_of_ne (fun h => hj h.symm)]
    simp [h32]
  | true =>
    simp only [BUS_RegBitWrite]
    rw [if_pos trivial, Nat.testBit_or, Nat.one_shiftLeft,
      Nat.testBit_two_pow_of_ne (fun h => hj h.symm)]
    simp

/-- A `getField` read only looks at bits of its own field. -/
theorem getField_congr_of_testBit (x y s w : Nat)
    (h : ∀ i, i < w → x.testBit (s + i) = y.testBit (s + i)) :
    getField x s w = getField y s w := by
  apply Nat.eq_of_testBit_eq
  intro i
  rw [testBit_getField, testBit_getField]
  by_cases hi : i < w
  · rw [h i hi]
  · simp [hi]

/-- A bit write at `bit` does not change any `getField` of a window of the
low 32 bits that avoids `bit`. -/
theorem getField_bitWrite_other (r bit : Nat) (b : Bool) (s w : Nat)
    (hd : bit < s ∨ s + w ≤ bit) (h32 : s + w ≤ 32) :
    getField (BUS_RegBitWrite r bit b) s w = getField r s w := by
  apply getField_congr_of_testBit
  intro i hi
  exact testBit_bitWrite_other r bit b (s + i) (by omega) (by omega)

-- ---------------------------------------------------------------------------
-- GPIO peripheral model (em_gpio.c in the sources; register block and the
-- small inline helpers it calls are declared in em_gpio.h / em_bus.h).
-- ---------------------------------------------------------------------------

/-- Per-port GPIO register block `GPIO->P[port]`. -/
structure GPIOPortState where
  CTRL : Nat
  MODEL : Nat
  MODEH : Nat
  DOUT : Nat
deriving Repr, DecidableEq

/-- The GPIO peripheral register block, restricted to the registers the
verified functions touch.  Ports are indexed by their port number. -/
structure GPIOState where
  P : Nat → GPIOPortState
  EXTIPSELL : Nat
  EXTIPSELH : Nat
  EXTIPINSELL : Nat
  EXTIPINSELH : Nat
  EXTIRISE : Nat
  EXTIFALL : Nat
  IF : Nat
  IEN : Nat

/-- Replace port `port`'s register block by `f` applied to it. -/
def updatePort (s : GPIOState) (port : Nat) (f : GPIOPortState → GPIOPortState) : GPIOState :=
  { s with P := fun q => if q = port then f (s.P q) else s.P q }

/-- `GPIO_IntClear` (em_gpio.h, declared outside the sources).
Modelled from the spec: clears (acknowledges) the pending GPIO interrupt
flags selected by `flags`, leaving the other pending flags unchanged. -/
def GPIO_IntClear (s : GPIOState) (flags : Nat) : GPIOState :=
  { s with IF := s.IF &&& (mask32 ^^^ flags) }

/-- `GPIO_PinOutSet` (em_gpio.h, declared outside the sources).
Modelled from the spec: sets bit `pin` in the port's DOUT register. -/
def GPIO_PinOutSet (s : GPIOState) (port pin : Nat) : GPIOState :=
  updatePort s port fun ps => { ps with DOUT := ps.DOUT ||| (1 <<< pin) }

/-- `GPIO_PinOutClear` (em_gpio.h, declared outside the sources).
Modelled from the spec: clears bit `pin` in the port's DOUT register. -/
def GPIO_PinOutClear (s : GPIOState) (port pin : Nat) : GPIOState :=
  updatePort s port fun ps => { ps with DOUT := ps.DOUT &&& (mask32 ^^^ (1 <<< pin)) }

/-- `GPIO_ExtIntConfig` (em_gpio.c).  Series-2 register layout:
EXTIPSEL fields are 4 bits wide (mask 0xF) and EXTIPINSEL fields 2 bits
wide (mask 0x3), each packed 4 bits apart, interrupts 0-7 in the `L`
register and 8-15 in the `H` register at position `intNo - 8`. -/
def GPIO_ExtIntConfig (s : GPIOState) (port pin intNo : Nat)
    (risingEdge fallingEdge enable : Bool) : GPIOState :=
  let s1 :=
    if intNo < 8 then
      { s with EXTIPSELL :=
          BUS_RegMaskedWrite s.EXTIPSELL (0xF <<< (4 * intNo)) (port <<< (4 * intNo)) }
    else
      { s with EXTIPSELH :=
          (BUS_RegMaskedWrite s.EXTIPSELH (0xF <<< (4 * (intNo - 8)))
            (port <<< (4 * (intNo - 8)))) }
  let s2 :=
    if intNo < 8 then
      { s1 with EXTIPINSELL :=
          (BUS_RegMaskedWrite s1.EXTIPINSELL (0x3 <<< (4 * intNo))
            ((pin % 4 &&& 0x3) <<< (4 * intNo))) }
    else
      { s1 with EXTIPINSELH :=
          (BUS_RegMaskedWrite s1.EXTIPINSELH (0x3 <<< (4 * (intNo - 8)))
            ((pin % 4 &&& 0x3) <<< (4 * (intNo - 8)))) }
  let s3 := { s2 with EXTIRISE := BUS_RegBitWrite s2.EXTIRISE intNo risingEdge }
  let s4 := { s3 with EXTIFALL := BUS_RegBitWrite s3.EXTIFALL intNo fallingEdge }
  let s5 := GPIO_IntClear s4 (1 <<< intNo)
  { s5 with IEN := BUS_RegBitWrite s5.IEN intNo enable }

/-- The external-interrupt port-select field belonging to interrupt `j`:
in EXTIPSELL for `j < 8`, in EXTIPSELH at position `j - 8` otherwise. -/
def portSelField (s : GPIOState) (j : Nat) : Nat :=
  if j < 8 then getField s.EXTIPSELL (4 * j) 4 else getField s.EXTIPSELH (4 * (j - 8)) 4

/-- The external-interrupt pin-select field belonging to interrupt `j`:
in EXTIPINSELL for `j < 8`, in EXTIPINSELH at position `j - 8` otherwise. -/
def pinSelField (s : GPIOState) (j : Nat) : Nat :=
  if j < 8 then getField s.EXTIPINSELL (4 * j) 2 else getField s.EXTIPINSELH (4 * (j - 8)) 2

theorem getField_maskedWrite_self_mask (r v s w m : Nat) (hm : m = 2 ^ w - 1)
    (hv : v < 2 ^ w) (hsw : s + w ≤ 32) :
    getField (BUS_RegMaskedWrite r (m <<< s) (v <<< s)) s w = v := by
  subst hm
  exact getField_maskedWrite_self r v s w hv hsw

theorem getField_maskedWrite_other_mask (r v s s' w w' m : Nat) (hm : m = 2 ^ w - 1)
    (hd : s' + w' ≤ s ∨ s + w ≤ s') (h32 : s' + w' ≤ 32) :
    getField (BUS_RegMaskedWrite r (m <<< s) v) s' w' = getField r s' w' := by
  subst hm
  exact getField_maskedWrite_other r v s s' w w' hd h32

theorem mod_four_and_three (pin : Nat) : pin % 4 &&& 3 = pin % 4 := by
  have h := and_two_pow_sub_one_of_lt (pin % 4) 2 (by omega)
  simpa using h

/-- Claim C1: for every valid port, pin and interrupt number, `GPIO_ExtIntConfig`
writes the port number into the 4-bit port-select field belonging to `intNo`
(EXTIPSELL for `intNo < 8`, EXTIPSELH at position `intNo - 8` otherwise) and
writes `pin % 4` into the pin-select field belonging to `intNo` (EXTIPINSELL
for `intNo < 8`, EXTIPINSELH at position `intNo - 8` otherwise). -/
theorem GPIO_ExtIntConfig_selects_fields (s : GPIOState) (port pin intNo : Nat)
    (risingEdge fallingEdge enable : Bool)
    (hport : port < 16) (hpin : pin < 16) (hint : intNo < 16)
    (hgrp : intNo / 4 = pin / 4) :
    portSelField (GPIO_ExtIntConfig s port pin intNo risingEdge fallingEdge enable) intNo
        = port
      ∧ pinSelField (GPIO_ExtIntConfig s port pin intNo risingEdge fallingEdge enable) intNo
        = pin % 4 := by
  by_cases h8 : intNo < 8
  · simp only [GPIO_ExtIntConfig, GPIO_IntClear, portSelField, pinSelField, if_pos h8]
    constructor
    · exact getField_maskedWrite_self_mask _ port (4 * intNo) 4 0xF (by norm_num) hport
        (by omega)
    · rw [mod_four_and_three]
      exact getField_maskedWrite_self_mask _ (pin % 4) (4 * intNo) 2 0x3 (by norm_num)
        (by omega) (by omega)
  · simp only [GPIO_ExtIntConfig, GPIO_IntClear, portSelField, pinSelField, if_neg h8]
    constructor
    · exact getField_maskedWrite_self_mask _ port (4 * (intNo - 8)) 4 0xF (by norm_num) hport
        (by omega)
    · rw [mod_four_and_three]
      exact getField_maskedWrite_self_mask _ (pin % 4) (4 * (intNo - 8)) 2 0x3 (by norm_num)
        (by omega) (by omega)

/-- A concrete GPIO state used to instantiate the universally quantified
theorems. -/
def gpioInit : GPIOState :=
  { P := fun _ => { CTRL := 0, MODEL := 0, MODEH := 0, DOUT := 0 }
    EXTIPSELL := 0x01234567
    EXTIPSELH := 0x76543210
    EXTIPINSELL := 0x01230123
    EXTIPINSELH := 0x32103210
    EXTIRISE := 0x0000FFFF
    EXTIFALL := 0x0000AAAA
    IF := 0x00005555
    IEN := 0x00003333 }

/-- Witness for claim C1 at port 1, pin 2, interrupt number 2. -/
theorem GPIO_ExtIntConfig_selects_fields_witness :
    (1 : Nat) < 16
      ∧ (portSelField (GPIO_ExtIntConfig gpioInit 1 2 2 true false true) 2 = 1
         ∧ pinSelField (GPIO_ExtIntConfig gpioInit 1 2 2 true false true) 2 = 2) :=
  ⟨by decide,
   GPIO_ExtIntConfig_selects_fields gpioInit 1 2 2 true false true
     (by decide) (by decide) (by decide) (by decide)⟩

/-- The net effect of `GPIO_ExtIntConfig` on each register, as one record. -/
theorem GPIO_ExtIntConfig_eq (s : GPIOState) (port pin intNo : Nat)
    (risingEdge fallingEdge enable : Bool) :
    GPIO_ExtIntConfig s port pin intNo risingEdge fallingEdge enable =
      { s with
        EXTIPSELL :=
          if intNo < 8 then
            BUS_RegMaskedWrite s.EXTIPSELL (0xF <<< (4 * intNo)) (port <<< (4 * intNo))
          else s.EXTIPSELL
        EXTIPSELH :=
          if intNo < 8 then s.EXTIPSELH
          else
            (BUS_RegMaskedWrite s.EXTIPSELH (0xF <<< (4 * (intNo - 8)))
              (port <<< (4 * (intNo - 8))))
        EXTIPINSELL :=
          if intNo < 8 then
            (BUS_RegMaskedWrite s.EXTIPINSELL (0x3 <<< (4 * intNo))
              ((pin % 4 &&& 0x3) <<< (4 * intNo)))
          else s.EXTIPINSELL
        EXTIPINSELH :=
          if intNo < 8 then s.EXTIPINSELH
          else
            (BUS_RegMaskedWrite s.EXTIPINSELH (0x3 <<< (4 * (intNo - 8)))
              ((pin % 4 &&& 0x3) <<< (4 * (intNo - 8))))
        EXTIRISE := BUS_RegBitWrite s.EXTIRISE intNo risingEdge
        EXTIFALL := BUS_RegBitWrite s.EXTIFALL intNo fallingEdge
        IF := BUS_RegBitWrite s.IF intNo false
        IEN := BUS_RegBitWrite s.IEN intNo enable } := by
  by_cases h8 : intNo < 8 <;>
    simp [GPIO_ExtIntConfig, GPIO_IntClear, BUS_RegBitWrite, h8]

/-- The frame property of `GPIO_ExtIntConfig`: only the state belonging to
`intNo` changes.  Every other interrupt number keeps its port-select and
pin-select fields; in EXTIRISE, EXTIFALL and IEN only bit `intNo` is written
(to `risingEdge`, `fallingEdge`, `enable`); only pending flag `intNo` is
cleared; the per-port registers are untouched. -/
def extIntConfigFrame (s : GPIOState) (port pin intNo : Nat)
    (risingEdge fallingEdge enable : Bool) : Prop :=
  let t := GPIO_ExtIntConfig s port pin intNo risingEdge fallingEdge enable
  (∀ j, j < 16 → j ≠ intNo →
      portSelField t j = portSelField s j ∧ pinSelField t j = pinSelField s j)
    ∧ (∀ j, j < 32 → j ≠ intNo →
        t.EXTIRISE.testBit j = s.EXTIRISE.testBit j
          ∧ t.EXTIFALL.testBit j = s.EXTIFALL.testBit j
          ∧ t.IEN.testBit j = s.IEN.testBit j
          ∧ t.IF.testBit j = s.IF.testBit j)
    ∧ t.EXTIRISE.testBit intNo = risingEdge
    ∧ t.EXTIFALL.testBit intNo = fallingEdge
    ∧ t.IEN.testBit intNo = enable
    ∧ t.IF.testBit intNo = false
    ∧ t.P = s.P

/-- Claim C3: a call to `GPIO_ExtIntConfig` changes only the state belonging
to `intNo`. -/
theorem GPIO_ExtIntConfig_frame (s : GPIOState) (port pin intNo : Nat)
    (risingEdge fallingEdge enable : Bool)
    (hport : port < 16) (hpin : pin < 16) (hint : intNo < 16)
    (hgrp : intNo / 4 = pin / 4) :
    extIntConfigFrame s port pin intNo risingEdge fallingEdge enable := by
  unfold extIntConfigFrame
  rw [GPIO_ExtIntConfig_eq]
  dsimp only
  refine ⟨?_, ?_, ?_, ?_, ?_, ?_, rfl⟩
  · intro j hj16 hjne
    constructor
    · simp only [portSelField]
      by_cases h8 : intNo < 8
      · simp only [if_pos h8]
        by_cases hj8 : j < 8
        · simp only [if_pos hj8]
          exact getField_maskedWrite_other_mask _ _ (4 * intNo) (4 * j) 4 4 0xF
            (by norm_num) (by omega) (by omega)
        · simp only [if_neg hj8]
      · simp only [if_neg h8]
        by_cases hj8 : j < 8
        · simp only [if_pos hj8]
        · simp only [if_neg hj8]
          exact getField_maskedWrite_other_mask _ _ (4 * (intNo - 8)) (4 * (j - 8)) 4 4 0xF
            (by norm_num) (by omega) (by omega)
    · simp only [pinSelField]
      by_cases h8 : intNo < 8
      · simp only [if_pos h8]
        by_cases hj8 : j < 8
        · simp only [if_pos hj8]
          exact getField_maskedWrite_other_mask _ _ (4 * intNo) (4 * j) 2 2 0x3
            (by norm_num) (by omega) (by omega)
        · simp only [if_neg hj8]
      · simp only [if_neg h8]
        by_cases hj8 : j < 8
        · simp only [if_pos hj8]
        · simp only [if_neg hj8]
          exact getField_maskedWrite_other_mask _ _ (4 * (intNo - 8)) (4 * (j - 8)) 2 2 0x3
            (by norm_num) (by omega) (by omega)
  · intro j hj32 hjne
    exact ⟨testBit_bitWrite_other _ _ _ j hjne hj32, testBit_bitWrite_other _ _ _ j hjne hj32,
      testBit_bitWrite_other _ _ _ j hjne hj32, testBit_bitWrite_other _ _ _ j hjne hj32⟩
  · exact testBit_bitWrite_self _ _ _ (by omega)
  · exact testBit_bitWrite_self _ _ _ (by omega)
  · exact testBit_bitWrite_self _ _ _ (by omega)
  · exact testBit_bitWrite_self _ _ _ (by omega)

/-- Witness for claim C3 at port 1, pin 2, interrupt number 2. -/
theorem GPIO_ExtIntConfig_frame_witness :
    (2 : Nat) < 16 ∧ extIntConfigFrame gpioInit 1 2 2 true false true :=
  ⟨by decide,
   GPIO_ExtIntConfig_frame gpioInit 1 2 2 true false true
     (by decide) (by decide) (by decide) (by decide)⟩

/-- `gpioModeDisabled` (em_gpio.h, declared outside the sources).
Modelled from the spec: the GPIO pin-mode enumerator for a disabled pin,
the 4-bit mode value 0. -/
def gpioModeDisabled : Nat := 0

/-- `GPIO_PinModeSet` (em_gpio.c): writes DOUT first (only when the pin is
not being disabled), writes the 4-bit mode field of the pin into MODEL
(pins 0-7) or MODEH (pins 8-15), and writes DOUT last when disabling. -/
def GPIO_PinModeSet (s : GPIOState) (port pin mode out : Nat) : GPIOState :=
  let s1 :=
    if mode ≠ gpioModeDisabled then
      (if out ≠ 0 then GPIO_PinOutSet s port pin else GPIO_PinOutClear s port pin)
    else s
  let s2 :=
    if pin < 8 then
      updatePort s1 port fun ps =>
        { ps with MODEL := BUS_RegMaskedWrite ps.MODEL (0xF <<< (pin * 4)) (mode <<< (pin * 4)) }
    else
      updatePort s1 port fun ps =>
        { ps with MODEH :=
            (BUS_RegMaskedWrite ps.MODEH (0xF <<< ((pin - 8) * 4)) (mode <<< ((pin - 8) * 4))) }
  if mode = gpioModeDisabled then
    (if out ≠ 0 then GPIO_PinOutSet s2 port pin else GPIO_PinOutClear s2 port pin)
  else s2

/-- `GPIO_PinModeGet` (em_gpio.c): reads the 4-bit mode field of the pin
from MODEL (pins 0-7) or MODEH (pins 8-15); the peripheral state is
returned unchanged. -/
def GPIO_PinModeGet (s : GPIOState) (port pin : Nat) : Nat × GPIOState :=
  (if pin < 8 then getField (s.P port).MODEL (pin * 4) 4
   else getField (s.P port).MODEH ((pin - 8) * 4) 4, s)

theorem outWrite_P_MODEL (s : GPIOState) (port pin out q : Nat) :
    (((if out ≠ 0 then GPIO_PinOutSet s port pin else GPIO_PinOutClear s port pin) :
        GPIOState).P q).MODEL = (s.P q).MODEL := by
  by_cases ho : out ≠ 0 <;> by_cases hq : q = port <;>
    simp [ho, hq, GPIO_PinOutSet, GPIO_PinOutClear, updatePort]

theorem outWrite_P_MODEH (s : GPIOState) (port pin out q : Nat) :
    (((if out ≠ 0 then GPIO_PinOutSet s port pin else GPIO_PinOutClear s port pin) :
        GPIOState).P q).MODEH = (s.P q).MODEH := by
  by_cases ho : out ≠ 0 <;> by_cases hq : q = port <;>
    simp [ho, hq, GPIO_PinOutSet, GPIO_PinOutClear, updatePort]

theorem pinModeSet_P_MODEL (s : GPIOState) (port pin mode out q : Nat) :
    ((GPIO_PinModeSet s port pin mode out).P q).MODEL =
      if q = port ∧ pin < 8 then
        BUS_RegMaskedWrite ((s.P q).MODEL) (0xF <<< (pin * 4)) (mode <<< (pin * 4))
      else (s.P q).MODEL := by
  unfold GPIO_PinModeSet
  by_cases hm : mode = gpioModeDisabled <;> by_cases ho : out ≠ 0 <;>
    by_cases h8 : pin < 8 <;> by_cases hq : q = port <;>
    simp [hm, ho, h8, hq, GPIO_PinOutSet, GPIO_PinOutClear, updatePort]

theorem pinModeSet_P_MODEH (s : GPIOState) (port pin mode out q : Nat) :
    ((GPIO_PinModeSet s port pin mode out).P q).MODEH =
      if q = port ∧ ¬pin < 8 then
        BUS_RegMaskedWrite ((s.P q).MODEH) (0xF <<< ((pin - 8) * 4)) (mode <<< ((pin - 8) * 4))
      else (s.P q).MODEH := by
  unfold GPIO_PinModeSet
  by_cases hm : mode = gpioModeDisabled <;> by_cases ho : out ≠ 0 <;>
    by_cases h8 : pin < 8 <;> by_cases hq : q = port <;>
    simp [hm, ho, h8, hq, GPIO_PinOutSet, GPIO_PinOutClear, updatePort]

/-- The round-trip and frame property of `GPIO_PinModeSet`: reading the pin
mode back gives exactly the mode written, and the mode field of every other
pin (on every port) is unchanged. -/
def pinModeRoundTrip (s : GPIOState) (port pin mode out : Nat) : Prop :=
  (GPIO_PinModeGet (GPIO_PinModeSet s port pin mode out) port pin).1 = mode
    ∧ ∀ q pin2, pin2 < 16 → (q ≠ port ∨ pin2 ≠ pin) →
        (GPIO_PinModeGet (GPIO_PinModeSet s port pin mode out) q pin2).1
          = (GPIO_PinModeGet s q pin2).1

/-- Claim C4: `GPIO_PinModeSet` followed by `GPIO_PinModeGet` on the same pin
returns exactly the 4-bit mode written, and the set changes no mode field of
any other pin. -/
theorem GPIO_PinModeSet_roundtrip_frame (s : GPIOState) (port pin mode out : Nat)
    (hpin : pin < 16) (hmode : mode < 16) :
    pinModeRoundTrip s port pin mode out := by
  constructor
  · simp only [GPIO_PinModeGet]
    by_cases h8 : pin < 8
    · rw [if_pos h8, pinModeSet_P_MODEL, if_pos ⟨rfl, h8⟩]
      exact getField_maskedWrite_self_mask _ mode (pin * 4) 4 0xF (by norm_num) hmode
        (by omega)
    · rw [if_neg h8, pinModeSet_P_MODEH, if_pos ⟨rfl, h8⟩]
      exact getField_maskedWrite_self_mask _ mode ((pin - 8) * 4) 4 0xF (by norm_num) hmode
        (by omega)
  · intro q pin2 hpin2 hne
    simp only [GPIO_PinModeGet]
    by_cases h28 : pin2 < 8
    · rw [if_pos h28, if_pos h28, pinModeSet_P_MODEL]
      by_cases hc : q = port ∧ pin < 8
      · rw [if_pos hc]
        have hnep : pin2 ≠ pin := by
          rcases hne with h | h
          · exact absurd hc.1 h
          · exact h
        exact getField_maskedWrite_other_mask _ _ (pin * 4) (pin2 * 4) 4 4 0xF (by norm_num)
          (by omega) (by omega)
      · rw [if_neg hc]
    · rw [if_neg h28, if_neg h28, pinModeSet_P_MODEH]
      by_cases hc : q = port ∧ ¬pin < 8
      · rw [if_pos hc]
        have hnep : pin2 ≠ pin := by
          rcases hne with h | h
          · exact absurd hc.1 h
          · exact h
        exact getField_maskedWrite_other_mask _ _ ((pin - 8) * 4) ((pin2 - 8) * 4) 4 4 0xF
          (by norm_num) (by omega) (by omega)
      · rw [if_neg hc]

/-- Witness for claim C4 at port 0, pin 3, mode 5, out 1. -/
theorem GPIO_PinModeSet_roundtrip_frame_witness :
    (3 : Nat) < 16 ∧ pinModeRoundTrip gpioInit 0 3 5 1 :=
  ⟨by decide, GPIO_PinModeSet_roundtrip_frame gpioInit 0 3 5 1 (by decide) (by decide)⟩

-- ---------------------------------------------------------------------------
-- I2C peripheral model (em_i2c.h in the sources).
-- ---------------------------------------------------------------------------

/-- The I2C peripheral register block, restricted to the registers the
verified accessors touch. -/
structure I2CState where
  CTRL : Nat
  IF : Nat
  IEN : Nat
  SADDR : Nat
  SADDRMASK : Nat
deriving Repr, DecidableEq

/-- `I2C_IntGet` (em_i2c.h): returns the IF register; reads only. -/
def I2C_IntGet (i2c : I2CState) : Nat × I2CState :=
  (i2c.IF, i2c)

/-- `I2C_IntGetEnabled` (em_i2c.h): reads IEN into a local, then returns
`IF AND ien`; reads only. -/
def I2C_IntGetEnabled (i2c : I2CState) : Nat × I2CState :=
  let ien := i2c.IEN
  (i2c.IF &&& ien, i2c)

/-- `I2C_SlaveAddressGet` (em_i2c.h): returns the SADDR register truncated
to 8 bits; reads only. -/
def I2C_SlaveAddressGet (i2c : I2CState) : Nat × I2CState :=
  (i2c.SADDR % 256, i2c)

/-- `I2C_SlaveAddressSet` (em_i2c.h): `SADDR := addr AND 0xfe`. -/
def I2C_SlaveAddressSet (i2c : I2CState) (addr : Nat) : I2CState :=
  { i2c with SADDR := addr &&& 0xfe }

/-- `I2C_SlaveAddressMaskGet` (em_i2c.h): returns the SADDRMASK register
truncated to 8 bits; reads only. -/
def I2C_SlaveAddressMaskGet (i2c : I2CState) : Nat × I2CState :=
  (i2c.SADDRMASK % 256, i2c)

/-- `I2C_SlaveAddressMaskSet` (em_i2c.h): `SADDRMASK := mask AND 0xfe`. -/
def I2C_SlaveAddressMaskSet (i2c : I2CState) (mask : Nat) : I2CState :=
  { i2c with SADDRMASK := mask &&& 0xfe }

/-- Claim C5: `I2C_IntGet` returns the value of the IF register and
`I2C_IntGetEnabled` returns the bitwise AND of the IEN register and the IF
register. -/
theorem I2C_IntGet_values (i2c : I2CState) :
    (I2C_IntGet i2c).1 = i2c.IF ∧ (I2C_IntGetEnabled i2c).1 = i2c.IEN &&& i2c.IF := by
  refine ⟨rfl, ?_⟩
  simp only [I2C_IntGetEnabled]
  exact Nat.land_comm i2c.IF i2c.IEN

/-- Claim C6: the read accessors `I2C_IntGet`, `I2C_IntGetEnabled`,
`I2C_SlaveAddressGet`, `I2C_SlaveAddressMaskGet` and `GPIO_PinModeGet` are
stateless: they leave every register unchanged. -/
theorem read_accessors_stateless (i2c : I2CState) (g : GPIOState) (port pin : Nat) :
    (I2C_IntGet i2c).2 = i2c
      ∧ (I2C_IntGetEnabled i2c).2 = i2c
      ∧ (I2C_SlaveAddressGet i2c).2 = i2c
      ∧ (I2C_SlaveAddressMaskGet i2c).2 = i2c
      ∧ (GPIO_PinModeGet g port pin).2 = g :=
  ⟨rfl, rfl, rfl, rfl, rfl⟩

/-- Claim C7: after `I2C_SlaveAddressSet` with an 8-bit address,
`I2C_SlaveAddressGet` returns `addr AND 0xfe`, and likewise for the address
mask; the least significant bit of the stored address and mask is 0. -/
theorem I2C_SlaveAddress_roundtrip (i2c : I2CState) (addr mask : Nat)
    (haddr : addr < 256) (hmask : mask < 256) :
    (I2C_SlaveAddressGet (I2C_SlaveAddressSet i2c addr)).1 = addr &&& 0xfe
      ∧ (I2C_SlaveAddressMaskGet (I2C_SlaveAddressMaskSet i2c mask)).1 = mask &&& 0xfe
      ∧ (I2C_SlaveAddressSet i2c addr).SADDR.testBit 0 = false
      ∧ (I2C_SlaveAddressMaskSet i2c mask).SADDRMASK.testBit 0 = false := by
  have hlow : ∀ x : Nat, (x &&& 0xfe).testBit 0 = false := by
    intro x
    rw [Nat.testBit_and]
    norm_num
  have hmod : ∀ x : Nat, x < 256 → (x &&& 0xfe) % 256 = x &&& 0xfe := by
    intro x hx
    exact Nat.mod_eq_of_lt (lt_of_le_of_lt Nat.and_le_left hx)
  exact ⟨hmod addr haddr, hmod mask hmask, hlow addr, hlow mask⟩

/-- Witness for claim C7 at address 0xA7 and mask 0x7F. -/
theorem I2C_SlaveAddress_roundtrip_witness :
    (0xA7 : Nat) < 256
      ∧ ((I2C_SlaveAddressGet (I2C_SlaveAddressSet ⟨0, 0, 0, 0, 0⟩ 0xA7)).1 = 0xA6
         ∧ (I2C_SlaveAddressMaskGet (I2C_SlaveAddressMaskSet ⟨0, 0, 0, 0, 0⟩ 0x7F)).1 = 0x7E
         ∧ (I2C_SlaveAddressSet ⟨0, 0, 0, 0, 0⟩ 0xA7).SADDR.testBit 0 = false
         ∧ (I2C_SlaveAddressMaskSet ⟨0, 0, 0, 0, 0⟩ 0x7F).SADDRMASK.testBit 0 = false) :=
  ⟨by decide,
   I2C_SlaveAddress_roundtrip ⟨0, 0, 0, 0, 0⟩ 0xA7 0x7F (by decide) (by decide)⟩

-- ---------------------------------------------------------------------------
-- Secure-element manager utilities (sl_se_manager_util.h in the sources).
-- ---------------------------------------------------------------------------

/-- `sl_se_lifecycle_event_flag_t` (sl_se_manager_util.h): the one-time
irreversible lifecycle event flags recorded in the OTP, bits 0 through 7. -/
inductive sl_se_lifecycle_event_flag_t where
  | SL_SE_LIFECYCLE_EVENT_HOST_UNSECURE_UNLOCKED
  | SL_SE_LIFECYCLE_EVENT_HOST_SECURE_UNLOCKED
  | SL_SE_LIFECYCLE_EVENT_SE_SECURE_UNLOCKED
  | SL_SE_LIFECYCLE_EVENT_INITIAL_DEBUG_LOCK_SET
  | SL_SE_LIFECYCLE_EVENT_HOST_SECURE_DEBUG_ENABLED
  | SL_SE_LIFECYCLE_EVENT_HOST_SECURE_DEBUG_DISABLED
  | SL_SE_LIFECYCLE_EVENT_HOST_DEBUG_LOCKED
  | SL_SE_LIFECYCLE_EVENT_AXIP_NONCE_ROLL_DISABLED
deriving Repr, DecidableEq

/-- The numeric value of each lifecycle event flag enumerator (0 to 7). -/
def sl_se_lifecycle_event_flag_t.val : sl_se_lifecycle_event_flag_t → Nat
  | .SL_SE_LIFECYCLE_EVENT_HOST_UNSECURE_UNLOCKED => 0
  | .SL_SE_LIFECYCLE_EVENT_HOST_SECURE_UNLOCKED => 1
  | .SL_SE_LIFECYCLE_EVENT_SE_SECURE_UNLOCKED => 2
  | .SL_SE_LIFECYCLE_EVENT_INITIAL_DEBUG_LOCK_SET => 3
  | .SL_SE_LIFECYCLE_EVENT_HOST_SECURE_DEBUG_ENABLED => 4
  | .SL_SE_LIFECYCLE_EVENT_HOST_SECURE_DEBUG_DISABLED => 5
  | .SL_SE_LIFECYCLE_EVENT_HOST_DEBUG_LOCKED => 6
  | .SL_SE_LIFECYCLE_EVENT_AXIP_NONCE_ROLL_DISABLED => 7

/-- `sl_se_lifecycle_event_flag_is_set` (sl_se_manager_util.h):
`(flags AND (1 << flag_index)) != 0`.  `flags` is the pointed-to 64-bit
flag word; the function is a pure computation on it. -/
def sl_se_lifecycle_event_flag_is_set (flags : Nat) (flag_index : Nat) : Bool :=
  decide (flags &&& (1 <<< flag_index) ≠ 0)

theorem and_two_pow_ne_zero_iff_testBit (x i : Nat) :
    (x &&& (1 <<< i) ≠ 0) ↔ x.testBit i = true := by
  rw [Nat.one_shiftLeft]
  constructor
  · intro h
    by_contra hb
    apply h
    apply Nat.eq_of_testBit_eq
    intro j
    rw [Nat.testBit_and, Nat.zero_testBit]
    by_cases hij : j = i
    · subst hij
      simp [Bool.eq_false_iff.mpr hb]
    · rw [Nat.testBit_two_pow_of_ne (fun hh => hij hh.symm)]
      simp
  · intro h hz
    have : (x &&& 2 ^ i).testBit i = false := by rw [hz]; exact Nat.zero_testBit i
    rw [Nat.testBit_and, h, Nat.testBit_two_pow_self] at this
    simp at this

/-- Claim C8: for every 64-bit flag word and every lifecycle event flag
(values 0 through 7), `sl_se_lifecycle_event_flag_is_set` returns true if and
only if the corresponding bit of the flag word is set. -/
theorem sl_se_lifecycle_event_flag_is_set_iff (flags : Nat)
    (f : sl_se_lifecycle_event_flag_t) (hflags : flags < 2 ^ 64) :
    sl_se_lifecycle_event_flag_is_set flags f.val = flags.testBit f.val := by
  simp only [sl_se_lifecycle_event_flag_is_set]
  by_cases h : flags.testBit f.val = true
  · rw [h, decide_eq_true_iff.mpr ((and_two_pow_ne_zero_iff_testBit flags f.val).mpr h)]
  · have hf : flags.testBit f.val = false := Bool.eq_false_iff.mpr h
    rw [hf]
    simp only [decide_eq_false_iff_not, Decidable.not_not]
    by_contra hz
    exact h ((and_two_pow_ne_zero_iff_testBit flags f.val).mp hz)

/-- Witness for claim C8 at flag word 0x55 and flag `SE_SECURE_UNLOCKED`. -/
theorem sl_se_lifecycle_event_flag_is_set_iff_witness :
    (0x55 : Nat) < 2 ^ 64
      ∧ sl_se_lifecycle_event_flag_is_set 0x55
          sl_se_lifecycle_event_flag_t.SL_SE_LIFECYCLE_EVENT_SE_SECURE_UNLOCKED.val
        = Nat.testBit 0x55
            sl_se_lifecycle_event_flag_t.SL_SE_LIFECYCLE_EVENT_SE_SECURE_UNLOCKED.val :=
  ⟨by norm_num,
   sl_se_lifecycle_event_flag_is_set_iff 0x55
     sl_se_lifecycle_event_flag_t.SL_SE_LIFECYCLE_EVENT_SE_SECURE_UNLOCKED (by norm_num)⟩

-- ---------------------------------------------------------------------------
-- I2C controller-mode transfer return type and the documented usage check
-- (em_i2c.h in the sources; the transfer state machine body is in em_i2c.c).
-- ---------------------------------------------------------------------------

/-- `I2C_TransferReturn_TypeDef` (em_i2c.h): return codes for the single
controller-mode transfer function. -/
inductive I2C_TransferReturn_TypeDef where
  | i2cTransferInProgress
  | i2cTransferDone
  | i2cTransferNack
  | i2cTransferBusErr
  | i2cTransferArbLost
  | i2cTransferUsageFault
  | i2cTransferSwFault
deriving Repr, DecidableEq

/-- The integer value of each transfer return code: in-progress is positive,
done is 0, error codes are negative. -/
def I2C_TransferReturn_TypeDef.toInt : I2C_TransferReturn_TypeDef → Int
  | .i2cTransferInProgress => 1
  | .i2cTransferDone => 0
  | .i2cTransferNack => -1
  | .i2cTransferBusErr => -2
  | .i2cTransferArbLost => -3
  | .i2cTransferUsageFault => -4
  | .i2cTransferSwFault => -5

/-- `I2C_FLAG_WRITE` (em_i2c.h): plain write sequence. -/
def I2C_FLAG_WRITE : Nat := 0x0001

/-- `I2C_FLAG_READ` (em_i2c.h): plain read sequence. -/
def I2C_FLAG_READ : Nat := 0x0002

/-- `I2C_FLAG_WRITE_READ` (em_i2c.h): combined write/read sequence. -/
def I2C_FLAG_WRITE_READ : Nat := 0x0004

/-- `I2C_FLAG_WRITE_WRITE` (em_i2c.h): write sequence using two buffers. -/
def I2C_FLAG_WRITE_WRITE : Nat := 0x0008

/-- `I2C_TransferSeq_TypeDef` (em_i2c.h), with the two data buffers
represented by their lengths. -/
structure I2C_TransferSeq_TypeDef where
  addr : Nat
  flags : Nat
  buf0_len : Nat
  buf1_len : Nat
deriving Repr, DecidableEq

/-- Modelled from the spec: the body of `I2C_TransferInit` (em_i2c.c) is
absent from the sources; only its prototype appears.  Its usage check is
modelled from the in-source documentation of `I2C_TransferSeq_TypeDef`:
when receiving, at least 1 byte must be received, and a receive length of 0
is considered a usage fault.  The check is a pure function of the transfer
request; no I2C peripheral state is an input to it. -/
def I2C_TransferInitUsageCheck (seq : I2C_TransferSeq_TypeDef) :
    Option I2C_TransferReturn_TypeDef :=
  if (seq.flags &&& I2C_FLAG_READ ≠ 0 ∧ seq.buf0_len = 0)
      ∨ (seq.flags &&& I2C_FLAG_WRITE_READ ≠ 0 ∧ seq.buf1_len = 0) then
    some .i2cTransferUsageFault
  else
    none

/-- Claim C2 counterexample: a zero-length read request makes the client
code itself produce the negative error code `i2cTransferUsageFault`, without
consulting any hardware status: the I2C transfer return type contains error
values defined and produced by this software. -/
theorem I2C_error_not_from_hardware_counterexample :
    I2C_TransferInitUsageCheck ⟨0x50, I2C_FLAG_READ, 0, 0⟩
        = some I2C_TransferReturn_TypeDef.i2cTransferUsageFault
      ∧ I2C_TransferReturn_TypeDef.toInt I2C_TransferReturn_TypeDef.i2cTransferUsageFault
        < 0 := by
  constructor
  · rw [I2C_TransferInitUsageCheck, if_pos]
    left
    exact ⟨by decide, rfl⟩
  · decide

/-- Claim C2 as amended: not every error value of the I2C transfer return
type originates from hardware status; the transfer-initialization usage check,
a pure function of the request alone, produces the software-defined error
value `i2cTransferUsageFault` (and only that value) whenever it rejects a
request. -/
theorem I2C_TransferInitUsageCheck_software_error (seq : I2C_TransferSeq_TypeDef)
    (r : I2C_TransferReturn_TypeDef) (h : I2C_TransferInitUsageCheck seq = some r) :
    r = I2C_TransferReturn_TypeDef.i2cTransferUsageFault
      ∧ I2C_TransferReturn_TypeDef.toInt r < 0 := by
  rw [I2C_TransferInitUsageCheck] at h
  by_cases hc : (seq.flags &&& I2C_FLAG_READ ≠ 0 ∧ seq.buf0_len = 0)
      ∨ (seq.flags &&& I2C_FLAG_WRITE_READ ≠ 0 ∧ seq.buf1_len = 0)
  · rw [if_pos hc] at h
    cases h
    exact ⟨rfl, by decide⟩
  · rw [if_neg hc] at h
    cases h

/-- Witness for the amended claim C2 at a zero-length combined
write/read request. -/
theorem I2C_TransferInitUsageCheck_software_error_witness :
    I2C_TransferInitUsageCheck ⟨0x22, I2C_FLAG_WRITE_READ, 2, 0⟩
        = some I2C_TransferReturn_TypeDef.i2cTransferUsageFault
      ∧ (I2C_TransferReturn_TypeDef.i2cTransferUsageFault
          = I2C_TransferReturn_TypeDef.i2cTransferUsageFault
         ∧ I2C_TransferReturn_TypeDef.toInt
             I2C_TransferReturn_TypeDef.i2cTransferUsageFault < 0) :=
  ⟨by decide,
   I2C_TransferInitUsageCheck_software_error ⟨0x22, I2C_FLAG_WRITE_READ, 2, 0⟩
     I2C_TransferReturn_TypeDef.i2cTransferUsageFault (by decide)⟩

/-- Claim C9 counterexample: `sl_se_lifecycle_event_flag_is_set` has a body
yet computes its result by portable software logic alone — its value is
fully determined by its ordinary arguments (a host-memory flag word and a
flag index), with no peripheral register state as input; different arguments
give different results with no register access involved. -/
theorem pure_function_counterexample :
    sl_se_lifecycle_event_flag_is_set 1 0 = true
      ∧ sl_se_lifecycle_event_flag_is_set 2 0 = false := by
  constructor <;> decide

/-- Claim C9 as amended: with the exception of
`sl_se_lifecycle_event_flag_is_set`, the functions with a body read or write
memory-mapped peripheral registers; `sl_se_lifecycle_event_flag_is_set`
itself is a pure computation whose result depends only on the addressed bit
of its flag-word argument. -/
theorem sl_se_lifecycle_event_flag_is_set_depends_only_on_bit (f g i : Nat)
    (hi : i < 8) (hb : f.testBit i = g.testBit i) :
    sl_se_lifecycle_event_flag_is_set f i = sl_se_lifecycle_event_flag_is_set g i := by
  simp only [sl_se_lifecycle_event_flag_is_set]
  by_cases hf : f.testBit i = true
  · have hg : g.testBit i = true := by rw [← hb]; exact hf
    rw [decide_eq_true_iff.mpr ((and_two_pow_ne_zero_iff_testBit f i).mpr hf),
      decide_eq_true_iff.mpr ((and_two_pow_ne_zero_iff_testBit g i).mpr hg)]
  · have hf2 : f.testBit i = false := Bool.eq_false_iff.mpr hf
    have hg2 : g.testBit i = false := by rw [← hb]; exact hf2
    have h1 : f &&& (1 <<< i) = 0 := by
      by_contra hz
      rw [(and_two_pow_ne_zero_iff_testBit f i).mp hz] at hf2
      cases hf2
    have h2 : g &&& (1 <<< i) = 0 := by
      by_contra hz
      rw [(and_two_pow_ne_zero_iff_testBit g i).mp hz] at hg2
      cases hg2
    rw [h1, h2]

/-- Witness for the amended claim C9 at flag words 3 and 7, bit 0. -/
theorem sl_se_lifecycle_depends_only_on_bit_witness :
    (0 : Nat) < 8
      ∧ sl_se_lifecycle_event_flag_is_set 3 0 = sl_se_lifecycle_event_flag_is_set 7 0 :=
  ⟨by decide, sl_se_lifecycle_event_flag_is_set_depends_only_on_bit 3 7 0 (by decide) (by decide)⟩
